import Mathlib

/-!
Verification development for the streaming-music playback core of the
Superheroes repository: the session controller / playback scheduler
(`musicService`) and the PCM chunk decoder (`musicUtils`).

Conventions of the embedding:

* Times on the device audio clock are embedded exactly, measured in audio
  frames (1/48000 s).  Every duration the code can produce is a whole number
  of frames (`audioBuffer.duration = numFrames / sampleRate` seconds, i.e.
  `numFrames` frames), and the pre-roll `bufferTime = 2` seconds is
  96000 frames, so `ℤ` frame counts represent all quantities of interest
  exactly.
* The module-level mutable state of `musicService` (playback state, mute
  flag, session handle, connection-error flag, scheduling cursor, audio
  context/gain node, pending `setTimeout` callbacks) is gathered in one
  record `CtrlState`; each exported function becomes a pure state
  transformer.
* `setTimeout` callbacks are modelled as pending timers carried in the
  state; a separate `Event.fire` step runs one of them, so races between a
  deferred callback and a later call are expressed as interleavings.
* The session handle is an opaque resource, modelled as a generation
  number; the gain node rebuilt during underrun recovery is tracked by a
  generation counter `outputGen`; the last value the code set or ramped the
  output gain to is `gainTarget` (the code only ever targets 0 or 1).
-/

namespace Superheroes

/-- Playback states of the session controller (`PlaybackState` in the
source). -/
inductive PlaybackState
  | stopped
  | playing
  | loading
  | paused
deriving DecidableEq, Repr

/-- The deferred `setTimeout` callbacks the controller creates: the
pre-roll promotion timer in `handleServerMessage`, and the 100 ms fade-out
completion timers of `pause()` and `stop()`. -/
inductive TimerKind
  | promoteT
  | pauseT
  | stopT
deriving DecidableEq, Repr

/-- Sample rate fixed by the service (`sampleRate = 48000`). -/
def sampleRate : ℤ := 48000

/-- Pre-roll buffer (`bufferTime = 2` seconds in the source), expressed in
frames: 2 s · 48000 frames/s = 96000 frames. -/
def bufferTime : ℤ := 96000

/-- The module-level mutable state of `musicService`. -/
structure CtrlState where
  /-- `state.playbackState`. -/
  playbackState : PlaybackState
  /-- `state.isMuted`. -/
  isMuted : Bool
  /-- `session`: `none` models `null`; `some g` a live handle of generation
  `g`. -/
  session : Option Nat
  /-- `connectionError`. -/
  connectionError : Bool
  /-- `nextStartTime`, in frames on the device audio clock. -/
  nextStartTime : ℤ
  /-- Whether `initAudioContext` has created the audio context and gain
  node. -/
  audioCtxInit : Bool
  /-- The most recent target the code set or ramped `outputNode.gain` to
  (always 0 or 1 in the source). -/
  gainTarget : ℚ
  /-- Generation of the output gain node; incremented when underrun
  recovery discards the node and builds a fresh one. -/
  outputGen : Nat
  /-- Pending `setTimeout` callbacks, in creation order. -/
  pending : List TimerKind
  /-- Fresh-handle counter used to model creation of new session
  handles. -/
  handleCtr : Nat
deriving DecidableEq, Repr

/-- The initial module state: `stopped`, unmuted, no session, no error,
cursor 0, no audio context yet. -/
def initState : CtrlState :=
  { playbackState := PlaybackState.stopped
    isMuted := false
    session := none
    connectionError := false
    nextStartTime := 0
    audioCtxInit := false
    gainTarget := 1
    outputGen := 0
    pending := []
    handleCtr := 0 }

/-! ## Chunk decoder (`musicUtils`) -/

/-- One `Uint8Array` store: JavaScript writes `charCodeAt` values into the
byte buffer reduced modulo 256. -/
def byteOfCharCode (c : Nat) : Nat := c % 256

/-- Reinterpret two little-endian bytes as one signed 16-bit sample, as
the `Int16Array` view over the byte buffer does. -/
def toInt16 (lo hi : Nat) : ℤ :=
  let v : Nat := lo % 256 + 256 * (hi % 256)
  if v < 32768 then (v : ℤ) else (v : ℤ) - 65536

/-- The `Int16Array` view of the byte buffer: consecutive byte pairs,
little-endian.  (Only applied to even-length buffers; constructing the
view over an odd-length buffer throws, which `decodeAudioData` accounts
for before this point.) -/
def pcm16Samples : List Nat → List ℤ
  | lo :: hi :: rest => toInt16 lo hi :: pcm16Samples rest
  | _ => []

/-- `decodeAudioData` (musicUtils), acting on the char codes of the binary
string produced by `atob`.  Faithful to the JavaScript semantics of the
source:

* `new Int16Array(buffer)` throws a `RangeError` when the buffer's byte
  length is odd, so an odd-length input is an error, not a result;
* `numFrames = pcm16Samples.length / numChannels` is handed to
  `audioContext.createBuffer`, which converts it to an unsigned integer by
  truncation; the Web Audio spec makes `createBuffer` throw a
  `NotSupportedError` when that length is zero, so an input holding less
  than one full frame (0 or 2 bytes here) is an error, not a result;
* otherwise the de-interleave loop's store for a trailing partial frame
  goes out of bounds of the channel's `Float32Array` and is silently
  discarded, so each channel holds exactly `⌊samples / numChannels⌋`
  values;
* each stored value is the interleaved sample `samples[i*numChannels+ch]`
  divided by 32768. -/
def decodeAudioData (audioData : List Nat) (numChannels : Nat) :
    Except String (List (List ℚ)) :=
  if audioData.length % 2 ≠ 0 then
    Except.error "RangeError: byte length of Int16Array should be a multiple of 2"
  else
    let samples := pcm16Samples (audioData.map byteOfCharCode)
    let numFrames := samples.length / numChannels
    if numFrames = 0 then
      Except.error "NotSupportedError: createBuffer: 0 is not a valid frame count"
    else
      Except.ok ((List.range numChannels).map (fun channel =>
        (List.range numFrames).map (fun i =>
          ((samples.getD (i * numChannels + channel) 0 : ℤ) : ℚ) / 32768)))

/-- Encoding of one signed 16-bit sample as two little-endian bytes; used
to state decode correctness for arbitrary interleaved sample arrays. -/
def encodeInt16 (s : ℤ) : List Nat :=
  let u := (s % 65536).toNat
  [u % 256, u / 256]

/-! ## Playback scheduler / session controller (`musicService`) -/

/-- Observable outcome of one chunk-bearing server message: the clock time
passed to `source.start` (`none` when the chunk was discarded in
`paused`/`stopped`), and whether the underrun branch ran (the
`console.warn` log). -/
structure ChunkOut where
  scheduled : Option ℤ
  underrun : Bool
deriving DecidableEq, Repr

/-- The scheduling part of `handleServerMessage`, for a chunk that decoded
to a buffer of duration `dur` frames, arriving when the audio clock reads
`clock` frames.  Mirrors the source: discard in `paused`/`stopped`;
otherwise, when the cursor is 0 (fresh start) or strictly behind the
clock, run the underrun sub-branch when the cursor was positive (flush by
rebuilding the gain node at the mute-dependent gain, set `loading`), reset
the cursor to `clock + bufferTime` and schedule the one-shot promotion
timer; finally `source.start(nextStartTime)` and advance the cursor by the
buffer's duration. -/
def handleChunkDecoded (clock dur : ℤ) (s : CtrlState) :
    CtrlState × ChunkOut :=
  if s.playbackState = PlaybackState.paused ∨
      s.playbackState = PlaybackState.stopped then
    (s, ⟨none, false⟩)
  else
    let underrun : Bool := decide (0 < s.nextStartTime ∧ s.nextStartTime < clock)
    let s1 :=
      if s.nextStartTime = 0 ∨ s.nextStartTime < clock then
        let s0 :=
          if 0 < s.nextStartTime ∧ s.nextStartTime < clock then
            { s with playbackState := PlaybackState.loading
                     outputGen := s.outputGen + 1
                     gainTarget := if s.isMuted then 0 else 1 }
          else s
        { s0 with nextStartTime := clock + bufferTime
                  pending := s0.pending ++ [TimerKind.promoteT] }
      else s
    ({ s1 with nextStartTime := s1.nextStartTime + dur },
     ⟨some s1.nextStartTime, underrun⟩)

/-- `handleServerMessage` for a chunk-bearing message.  The
`paused`/`stopped` guard precedes decoding; the `atob` decode result is
supplied as `data` (`Except.error` when the base64 is malformed and `atob`
throws).  There is no try/catch in the handler, so a decode failure —
either from `atob` or from `decodeAudioData` — escapes it uncaught,
modelled as an `Except.error` outcome with the module state unchanged
(nothing is mutated before the decode call).  On success the buffer's
duration is its frame count and scheduling proceeds;
`handleChunkDecoded` restates the state guard, which is a no-op here. -/
def handleServerMessage (clock : ℤ) (data : Except Unit (List Nat))
    (s : CtrlState) : CtrlState × Except Unit ChunkOut :=
  if s.playbackState = PlaybackState.paused ∨
      s.playbackState = PlaybackState.stopped then
    (s, Except.ok ⟨none, false⟩)
  else
    match data with
    | Except.error _ => (s, Except.error ())
    | Except.ok bytes =>
      match decodeAudioData bytes 2 with
      | Except.error _ => (s, Except.error ())
      | Except.ok channels =>
        let dur : ℤ := ((channels.getD 0 []).length : ℤ)
        let r := handleChunkDecoded clock dur s
        (r.1, Except.ok r.2)

/-- `initAudioContext`: lazily create the audio context and gain node,
setting the initial gain from the current mute state; idempotent. -/
def initAudioContext (s : CtrlState) : CtrlState :=
  if s.audioCtxInit then s
  else
    { s with audioCtxInit := true
             gainTarget := if s.isMuted then 0 else 1 }

/-- Outcome of the external `ai.live.music.connect` attempt, including the
missing-API-key early exit. -/
inductive ConnectOutcome
  | noKey
  | ok
  | fail
deriving DecidableEq, Repr

/-- `connect()`.  Without an API key it only sets `connectionError`.  When
a session handle already exists it returns at once (idempotence) — note it
does so even when that handle is dead, because nothing in the module ever
clears `session`.  Otherwise it initialises the audio context and either
installs a fresh handle and clears `connectionError`, or records the
failure and forces `stopped`. -/
def connect (o : ConnectOutcome) (s : CtrlState) : CtrlState :=
  match o with
  | ConnectOutcome.noKey => { s with connectionError := true }
  | ConnectOutcome.ok =>
    if s.session.isSome then s
    else
      let s1 := initAudioContext s
      { s1 with session := some s1.handleCtr
                handleCtr := s1.handleCtr + 1
                connectionError := false }
  | ConnectOutcome.fail =>
    if s.session.isSome then s
    else
      let s1 := initAudioContext s
      { s1 with connectionError := true
                playbackState := PlaybackState.stopped }

/-- `play()`.  No-op without a session or when already
`playing`/`loading`; with a sticky `connectionError` it calls `connect()`
(whose outcome is `o`) and returns; otherwise it ensures the audio
context, sets the gain from the mute state and enters `loading`. -/
def play (o : ConnectOutcome) (s : CtrlState) : CtrlState :=
  if s.session = none ∨ s.playbackState = PlaybackState.playing ∨
      s.playbackState = PlaybackState.loading then s
  else if s.connectionError then connect o s
  else
    let s1 := initAudioContext s
    { s1 with gainTarget := if s1.isMuted then 0 else 1
              playbackState := PlaybackState.loading }

/-- `pause()`: no-op without a session or when already
`paused`/`stopped`; otherwise reset the cursor, ramp the gain to 0 over
100 ms and defer the state transition to the fade-out completion timer. -/
def pause (s : CtrlState) : CtrlState :=
  if s.session = none ∨ s.playbackState = PlaybackState.paused ∨
      s.playbackState = PlaybackState.stopped then s
  else
    { s with nextStartTime := 0
             gainTarget := 0
             pending := s.pending ++ [TimerKind.pauseT] }

/-- `stop()`: no-op without a session; otherwise reset the cursor, ramp
the gain to 0 over 100 ms and defer the transition to `stopped` to the
fade-out completion timer.  (It does not clear `session`.) -/
def stop (s : CtrlState) : CtrlState :=
  if s.session = none then s
  else
    { s with nextStartTime := 0
             gainTarget := 0
             pending := s.pending ++ [TimerKind.stopT] }

/-- `toggleMute()`: a complete no-op before the audio context and gain
node exist; otherwise flip `isMuted` and ramp the gain to the new
mute-dependent target over 50 ms. -/
def toggleMute (s : CtrlState) : CtrlState :=
  if ¬ s.audioCtxInit then s
  else
    let newMutedState := !s.isMuted
    { s with isMuted := newMutedState
             gainTarget := if newMutedState then 0 else 1 }

/-- Run one deferred `setTimeout` callback: the promotion timer promotes
`loading` to `playing` only when the state is still `loading`; the
`pause()`/`stop()` fade-out timers set their state and unconditionally
restore the gain to 1. -/
def fireTimer (k : TimerKind) (s : CtrlState) : CtrlState :=
  match k with
  | TimerKind.promoteT =>
    if s.playbackState = PlaybackState.loading then
      { s with playbackState := PlaybackState.playing }
    else s
  | TimerKind.pauseT =>
    { s with playbackState := PlaybackState.paused, gainTarget := 1 }
  | TimerKind.stopT =>
    { s with playbackState := PlaybackState.stopped, gainTarget := 1 }

/-- Events the module reacts to: the public control surface, the remote
session's lifecycle callbacks, an arriving (already decoded) chunk, and
the firing of one pending deferred callback. -/
inductive Event
  | connectEv (o : ConnectOutcome)
  | playEv (o : ConnectOutcome)
  | pauseEv
  | stopEv
  | toggleMuteEv
  | chunk (clock dur : ℤ)
  | setupComplete
  | onError
  | onClose
  | fire (i : Nat)
deriving DecidableEq, Repr

/-- One step of the event-driven module.  `setupComplete` clears the
connection-error flag; the `onerror`/`onclose` callbacks set it and call
`stop()`; `fire i` runs the `i`-th pending deferred callback (no-op when
out of range). -/
def step (e : Event) (s : CtrlState) : CtrlState :=
  match e with
  | Event.connectEv o => connect o s
  | Event.playEv o => play o s
  | Event.pauseEv => pause s
  | Event.stopEv => stop s
  | Event.toggleMuteEv => toggleMute s
  | Event.chunk clock dur => (handleChunkDecoded clock dur s).1
  | Event.setupComplete => { s with connectionError := false }
  | Event.onError => stop { s with connectionError := true }
  | Event.onClose => stop { s with connectionError := true }
  | Event.fire i =>
    match s.pending[i]? with
    | none => s
    | some k => fireTimer k { s with pending := s.pending.eraseIdx i }

/-- States reachable from the initial module state by event steps. -/
inductive Reachable : CtrlState → Prop
  | init : Reachable initState
  | step (e : Event) {s : CtrlState} : Reachable s → Reachable (step e s)

/-- Deliver a list of `(arrival clock, duration)` chunk messages in order,
collecting the clock times at which the playback nodes were scheduled to
start. -/
def runChunks : List (ℤ × ℤ) → CtrlState → CtrlState × List ℤ
  | [], s => (s, [])
  | (c, d) :: rest, s =>
    let r := handleChunkDecoded c d s
    ((runChunks rest r.1).1, r.2.scheduled.toList ++ (runChunks rest r.1).2)

/-- The contiguous schedule starting at `b` for the given durations: each
interval begins where the previous one ends. -/
def prefixStarts : ℤ → List ℤ → List ℤ
  | _, [] => []
  | b, d :: ds => b :: prefixStarts (b + d) ds

/-- The delivery pattern in which the cursor stays ahead of the clock:
relative to cursor position `cur`, each chunk arrives no later than the
cursor and has a nonnegative duration. -/
def Ahead : ℤ → List (ℤ × ℤ) → Prop
  | _, [] => True
  | cur, (c, d) :: rest => c ≤ cur ∧ 0 ≤ d ∧ Ahead (cur + d) rest

instance instDecidableAhead :
    (cur : ℤ) → (l : List (ℤ × ℤ)) → Decidable (Ahead cur l)
  | _, [] => Decidable.isTrue trivial
  | cur, (c, d) :: rest =>
    @instDecidableAnd _ _ (Int.decLe c cur)
      (@instDecidableAnd _ _ (Int.decLe 0 d) (instDecidableAhead (cur + d) rest))

/-- `stop()` followed by the firing of the fade-out completion timer it
scheduled (the last pending callback): the settled outcome of a `stop()`
call. -/
def stopSettled (s : CtrlState) : CtrlState :=
  let s1 := step Event.stopEv s
  step (Event.fire (s1.pending.length - 1)) s1

/-! ### Concrete states used by the witnesses -/

/-- A freshly started controller: connected, `play()` issued, first chunk
not yet arrived (cursor 0, state `loading`). -/
def loadingState : CtrlState :=
  { initState with
      playbackState := PlaybackState.loading
      session := some 0
      audioCtxInit := true
      handleCtr := 1 }

/-- A controller in steady playback with the cursor at 192000 frames
(4 s): the state of the spec's underrun scenario just before the late
chunk. -/
def playingAtFour : CtrlState :=
  { loadingState with
      playbackState := PlaybackState.playing
      nextStartTime := 192000 }

/-- The state after a connection error: the `onerror` callback ran
(`connectionError` set, `stop()` issued) and the fade-out timer fired.
The dead session handle is still present, because nothing ever clears
`session`. -/
def errorStuckState : CtrlState :=
  { playbackState := PlaybackState.stopped
    isMuted := false
    session := some 0
    connectionError := true
    nextStartTime := 0
    audioCtxInit := true
    gainTarget := 1
    outputGen := 0
    pending := []
    handleCtr := 1 }

/-- A paused controller whose pre-roll promotion timer from an earlier
buffering window is still pending. -/
def pausedPendingPromote : CtrlState :=
  { initState with
      playbackState := PlaybackState.paused
      session := some 0
      audioCtxInit := true
      pending := [TimerKind.promoteT] }

/-- A muted controller in the middle of a `pause()` fade-out: the fade
completion timer is pending. -/
def mutedFadeState : CtrlState :=
  { initState with
      playbackState := PlaybackState.playing
      isMuted := true
      session := some 0
      audioCtxInit := true
      gainTarget := 0
      pending := [TimerKind.pauseT] }

/-! ## Decoder lemmas -/

theorem pcm16Samples_length : ∀ l : List Nat,
    (pcm16Samples l).length = l.length / 2
  | [] => rfl
  | [_] => by simp [pcm16Samples]
  | lo :: hi :: rest => by
    simp only [pcm16Samples, List.length_cons, pcm16Samples_length rest]
    omega

theorem toInt16_encode (x : ℤ) (h1 : -32768 ≤ x) (h2 : x ≤ 32767) :
    toInt16 (byteOfCharCode ((x % 65536).toNat % 256))
      (byteOfCharCode ((x % 65536).toNat / 256)) = x := by
  simp only [toInt16, byteOfCharCode]
  split <;> omega

theorem pcm16Samples_encode : ∀ raw : List ℤ,
    (∀ x ∈ raw, -32768 ≤ x ∧ x ≤ 32767) →
    pcm16Samples ((raw.flatMap encodeInt16).map byteOfCharCode) = raw
  | [], _ => rfl
  | x :: xs, h => by
    have hx := h x (List.mem_cons_self x xs)
    have hxs : ∀ y ∈ xs, -32768 ≤ y ∧ y ≤ 32767 :=
      fun y hy => h y (List.mem_cons_of_mem x hy)
    rw [List.flatMap_cons, List.map_append]
    have henc : (encodeInt16 x).map byteOfCharCode =
        [byteOfCharCode ((x % 65536).toNat % 256),
         byteOfCharCode ((x % 65536).toNat / 256)] := rfl
    rw [henc]
    simp only [List.cons_append, List.append_eq, List.nil_append, pcm16Samples]
    rw [pcm16Samples_encode xs hxs, toInt16_encode x hx.1 hx.2]

theorem encodeInt16_length (x : ℤ) : (encodeInt16 x).length = 2 := rfl

theorem flatMap_encodeInt16_length (raw : List ℤ) :
    (raw.flatMap encodeInt16).length = 2 * raw.length := by
  induction raw with
  | nil => rfl
  | cons x xs ih =>
    simp only [List.flatMap_cons, List.length_append, ih, encodeInt16_length,
      List.length_cons]
    omega

/-! ## C6: partial-frame truncation -/

/-- C6 (counterexample): the claim says `decodeAudioData` never raises an
error on inputs whose length is not a multiple of `2 * channelCount`, but
on the one-byte input the `Int16Array` view construction throws a
`RangeError`, so the decoder raises instead of returning normally. -/
theorem C6_odd_length_raises :
    decodeAudioData [0] 2 =
      Except.error "RangeError: byte length of Int16Array should be a multiple of 2" :=
  rfl

/-- C6 (amended): for every binary input of even length holding at least
one full frame (length ≥ `2 * channelCount` = 4 bytes) — including
lengths that are not multiples of `2 * channelCount` — `decodeAudioData`
returns normally, silently dropping the excess partial frame: the decoded
frame count is the truncated quotient of the raw sample count by the
channel count.  Inputs of odd length instead raise a `RangeError` from
the `Int16Array` view construction, and even-length inputs holding less
than one full frame (0 or 2 bytes, frame count truncating to zero) raise
a `NotSupportedError` from `createBuffer`. -/
theorem C6_partial_frame_truncation (bytes : List Nat)
    (h2 : bytes.length % 2 = 0) :
    (4 ≤ bytes.length →
      ∃ chans, decodeAudioData bytes 2 = Except.ok chans ∧
        chans.length = 2 ∧
        ∀ ch ∈ chans, ch.length = bytes.length / 2 / 2) ∧
    (bytes.length < 4 →
      decodeAudioData bytes 2 =
        Except.error "NotSupportedError: createBuffer: 0 is not a valid frame count") := by
  have hsl : (pcm16Samples (bytes.map byteOfCharCode)).length
      = bytes.length / 2 := by
    rw [pcm16Samples_length, List.length_map]
  constructor
  · intro h4
    simp only [decodeAudioData]
    rw [if_neg (by omega), if_neg (by rw [hsl]; omega)]
    refine ⟨_, rfl, ?_, ?_⟩
    · simp
    · intro ch hch
      simp only [List.mem_map, List.mem_range] at hch
      obtain ⟨c, _, rfl⟩ := hch
      simp [pcm16Samples_length]
  · intro h4
    simp only [decodeAudioData]
    rw [if_neg (by omega), if_pos (by rw [hsl]; omega)]

theorem C6_partial_frame_truncation_witness :
    ([1, 2, 3, 4, 5, 6] : List Nat).length % 2 = 0 ∧
    ((4 ≤ ([1, 2, 3, 4, 5, 6] : List Nat).length →
      ∃ chans, decodeAudioData [1, 2, 3, 4, 5, 6] 2 = Except.ok chans ∧
        chans.length = 2 ∧
        ∀ ch ∈ chans,
          ch.length = ([1, 2, 3, 4, 5, 6] : List Nat).length / 2 / 2) ∧
    (([1, 2, 3, 4, 5, 6] : List Nat).length < 4 →
      decodeAudioData [1, 2, 3, 4, 5, 6] 2 =
        Except.error "NotSupportedError: createBuffer: 0 is not a valid frame count")) ∧
    decodeAudioData [0, 0] 2 =
      Except.error "NotSupportedError: createBuffer: 0 is not a valid frame count" :=
  ⟨by decide, C6_partial_frame_truncation [1, 2, 3, 4, 5, 6] (by decide), rfl⟩

/-! ## C7: decode correctness -/

/-- C7 (counterexample): the claim quantifies over every interleaved
sample array of length `N * channelCount`, including the empty array
(`N = 0`); there `numFrames` is 0 and the source's
`audioContext.createBuffer(2, 0, 48000)` throws a `NotSupportedError`,
so `decodeAudioData` raises instead of yielding channel arrays. -/
theorem C7_empty_raises :
    ([] : List ℤ).length = 0 * 2 ∧
    decodeAudioData (([] : List ℤ).flatMap encodeInt16) 2 =
      Except.error "NotSupportedError: createBuffer: 0 is not a valid frame count" :=
  ⟨rfl, rfl⟩

/-- C7 (amended): for every interleaved signed 16-bit sample array of
length `N * channelCount` (channelCount = 2) with `N ≥ 1`,
`decodeAudioData` yields 2 per-channel arrays of length `N`, every value
in `[-1, 1]`, and channel `c` sample `i` equal to
`raw[i*channelCount + c] / 32768`; the empty array (`N = 0`) instead
raises a `NotSupportedError` from `createBuffer`. -/
theorem C7_decode_correctness (raw : List ℤ) (N : Nat) (hN : 0 < N)
    (hlen : raw.length = N * 2)
    (hrange : ∀ x ∈ raw, -32768 ≤ x ∧ x ≤ 32767) :
    ∃ chans, decodeAudioData (raw.flatMap encodeInt16) 2 = Except.ok chans ∧
      chans.length = 2 ∧
      (∀ ch ∈ chans, ch.length = N) ∧
      (∀ ch ∈ chans, ∀ v ∈ ch, -1 ≤ v ∧ v ≤ 1) ∧
      (∀ c, c < 2 → ∀ i, i < N →
        (chans.getD c []).getD i 0 = ((raw.getD (i * 2 + c) 0 : ℤ) : ℚ) / 32768) := by
  have hb : (raw.flatMap encodeInt16).length = 2 * raw.length :=
    flatMap_encodeInt16_length raw
  simp only [decodeAudioData]
  rw [if_neg (by omega), pcm16Samples_encode raw hrange]
  have hN2 : raw.length / 2 = N := by omega
  rw [hN2, if_neg (by omega)]
  refine ⟨_, rfl, by simp, ?_, ?_, ?_⟩
  · intro ch hch
    simp only [List.mem_map, List.mem_range] at hch
    obtain ⟨c, _, rfl⟩ := hch
    simp
  · intro ch hch v hv
    simp only [List.mem_map, List.mem_range] at hch
    obtain ⟨c, hc, rfl⟩ := hch
    simp only [List.mem_map, List.mem_range] at hv
    obtain ⟨i, hi, rfl⟩ := hv
    have hidx : i * 2 + c < raw.length := by omega
    have hmem : raw.getD (i * 2 + c) 0 ∈ raw := by
      rw [List.getD_eq_getElem raw 0 hidx]
      exact List.getElem_mem hidx
    have hq := hrange _ hmem
    constructor
    · rw [le_div_iff₀ (by norm_num : (0 : ℚ) < 32768)]
      have : (-32768 : ℚ) ≤ (raw.getD (i * 2 + c) 0 : ℚ) := by exact_mod_cast hq.1
      linarith
    · rw [div_le_one (by norm_num : (0 : ℚ) < 32768)]
      have : (raw.getD (i * 2 + c) 0 : ℚ) ≤ 32767 := by exact_mod_cast hq.2
      linarith
  · intro c hc i hi
    have hc2 : c < (List.range 2).length := by simpa using hc
    have hlm : c < ((List.range 2).map (fun channel =>
        (List.range N).map fun j =>
          ((raw.getD (j * 2 + channel) 0 : ℤ) : ℚ) / 32768)).length := by
      simpa using hc
    rw [List.getD_eq_getElem _ _ hlm, List.getElem_map, List.getElem_range]
    have hi2 : i < ((List.range N).map fun j =>
        ((raw.getD (j * 2 + c) 0 : ℤ) : ℚ) / 32768).length := by
      simpa using hi
    rw [List.getD_eq_getElem _ _ hi2, List.getElem_map, List.getElem_range]

theorem C7_decode_correctness_witness :
    (0 < 2 ∧ ([1000, -1000, 32767, -32768] : List ℤ).length = 2 * 2 ∧
      (∀ x ∈ ([1000, -1000, 32767, -32768] : List ℤ),
        -32768 ≤ x ∧ x ≤ 32767)) ∧
    (∃ chans,
      decodeAudioData (([1000, -1000, 32767, -32768] : List ℤ).flatMap encodeInt16) 2
        = Except.ok chans ∧
      chans.length = 2 ∧
      (∀ ch ∈ chans, ch.length = 2) ∧
      (∀ ch ∈ chans, ∀ v ∈ ch, -1 ≤ v ∧ v ≤ 1) ∧
      (∀ c, c < 2 → ∀ i, i < 2 →
        (chans.getD c []).getD i 0 =
          ((([1000, -1000, 32767, -32768] : List ℤ).getD (i * 2 + c) 0 : ℤ) : ℚ) / 32768)) :=
  ⟨⟨by decide, by decide, by decide⟩,
    C7_decode_correctness [1000, -1000, 32767, -32768] 2 (by decide)
      (by decide) (by decide)⟩

/-! ## C1: gapless scheduling -/

/-- A chunk arriving while the cursor is positive and not behind the clock
is scheduled exactly at the cursor, which then advances by the chunk's
duration; nothing else changes. -/
theorem handleChunkDecoded_ahead (clock dur : ℤ) (s : CtrlState)
    (hst : s.playbackState = PlaybackState.loading ∨
      s.playbackState = PlaybackState.playing)
    (hpos : 0 < s.nextStartTime) (hclk : clock ≤ s.nextStartTime) :
    handleChunkDecoded clock dur s =
      ({ s with nextStartTime := s.nextStartTime + dur },
        ⟨some s.nextStartTime, false⟩) := by
  have hguard : ¬ (s.playbackState = PlaybackState.paused ∨
      s.playbackState = PlaybackState.stopped) := by
    rcases hst with h | h <;> simp [h]
  have hund : decide (0 < s.nextStartTime ∧ s.nextStartTime < clock) = false := by
    simp only [decide_eq_false_iff_not]
    omega
  simp only [handleChunkDecoded, if_neg hguard, hund]
  rw [if_neg (by omega)]

/-- While the cursor stays ahead of the clock, the chunks delivered to the
scheduler are scheduled back-to-back from the current cursor position. -/
theorem runChunks_ahead : ∀ (chunks : List (ℤ × ℤ)) (s : CtrlState)
    (cur : ℤ), s.nextStartTime = cur → 0 < cur →
    (s.playbackState = PlaybackState.loading ∨
      s.playbackState = PlaybackState.playing) →
    Ahead cur chunks →
    (runChunks chunks s).2 = prefixStarts cur (chunks.map Prod.snd) ∧
    (runChunks chunks s).1.nextStartTime = cur + (chunks.map Prod.snd).sum
  | [], s, cur, hcur, _, _, _ => by
    simp [runChunks, prefixStarts, hcur]
  | (c, d) :: rest, s, cur, hcur, hpos, hst, ha => by
    subst hcur
    obtain ⟨hc, hd, ha'⟩ := ha
    have hstep := handleChunkDecoded_ahead c d s hst hpos hc
    have ih := runChunks_ahead rest
      { s with nextStartTime := s.nextStartTime + d }
      (s.nextStartTime + d) rfl (by omega) (by simpa using hst) ha'
    simp only [runChunks, hstep, List.map_cons, prefixStarts, List.sum_cons,
      Option.toList_some, List.singleton_append]
    exact ⟨by rw [ih.1], by rw [ih.2]; ring⟩

/-- C1: chunks delivered while the state is `loading`/`playing` and the
cursor stays ahead of the audio clock are scheduled gaplessly: with the
first chunk arriving at clock time `T` against a fresh cursor
(`nextStartTime = 0`), chunk `i` starts at `T + bufferTime` plus the sum
of the durations of chunks `0..i-1` — the intervals are contiguous with
no gaps and no overlaps, the first chunk starting at the pre-roll cursor
`T + bufferTime`, not immediately — and afterwards the cursor sits at the
end of the last interval. -/
theorem C1_gapless_scheduling (s : CtrlState) (T d0 : ℤ)
    (rest : List (ℤ × ℤ))
    (hst : s.playbackState = PlaybackState.loading ∨
      s.playbackState = PlaybackState.playing)
    (h0 : s.nextStartTime = 0) (hT : 0 ≤ T) (hd0 : 0 ≤ d0)
    (ha : Ahead (T + bufferTime + d0) rest) :
    (runChunks ((T, d0) :: rest) s).2
      = prefixStarts (T + bufferTime) (d0 :: rest.map Prod.snd) ∧
    (runChunks ((T, d0) :: rest) s).1.nextStartTime
      = T + bufferTime + d0 + (rest.map Prod.snd).sum := by
  have hguard : ¬ (s.playbackState = PlaybackState.paused ∨
      s.playbackState = PlaybackState.stopped) := by
    rcases hst with h | h <;> simp [h]
  have hund : decide (0 < s.nextStartTime ∧ s.nextStartTime < T) = false := by
    simp only [decide_eq_false_iff_not]
    omega
  have hstep : handleChunkDecoded T d0 s =
      ({ s with nextStartTime := T + bufferTime + d0
                pending := s.pending ++ [TimerKind.promoteT] },
        ⟨some (T + bufferTime), false⟩) := by
    simp only [handleChunkDecoded, if_neg hguard, hund]
    rw [if_pos (Or.inl h0), if_neg (by omega)]
  have ih := runChunks_ahead rest
    { s with nextStartTime := T + bufferTime + d0
             pending := s.pending ++ [TimerKind.promoteT] }
    (T + bufferTime + d0) rfl
    (by simp only [bufferTime]; omega) (by simpa using hst) ha
  simp only [runChunks, hstep, List.map_cons, prefixStarts, List.sum_cons,
    Option.toList_some, List.singleton_append]
  exact ⟨by rw [ih.1], by rw [ih.2]⟩

/-- C1 witness: the spec scenario in frame units (T = 480000 frames =
10 s, three 1-second chunks of 48000 frames each): the scheduled starts
are `T+2s, T+3s, T+4s` = 576000, 624000, 672000 frames. -/
theorem C1_gapless_scheduling_witness :
    ((loadingState.playbackState = PlaybackState.loading ∨
        loadingState.playbackState = PlaybackState.playing) ∧
      loadingState.nextStartTime = 0 ∧ (0 : ℤ) ≤ 480000 ∧ (0 : ℤ) ≤ 48000 ∧
      Ahead (480000 + bufferTime + 48000) [(528000, 48000), (576000, 48000)]) ∧
    ((runChunks [(480000, 48000), (528000, 48000), (576000, 48000)]
        loadingState).2
      = prefixStarts (480000 + bufferTime)
          (48000 :: ([(528000, 48000), (576000, 48000)] : List (ℤ × ℤ)).map Prod.snd) ∧
    (runChunks [(480000, 48000), (528000, 48000), (576000, 48000)]
        loadingState).1.nextStartTime
      = 480000 + bufferTime + 48000 +
          (([(528000, 48000), (576000, 48000)] : List (ℤ × ℤ)).map Prod.snd).sum) ∧
    (runChunks [(480000, 48000), (528000, 48000), (576000, 48000)]
        loadingState).2 = [576000, 624000, 672000] :=
  ⟨⟨Or.inl rfl, rfl, by decide, by decide, by decide⟩,
    C1_gapless_scheduling loadingState 480000 48000
      [(528000, 48000), (576000, 48000)] (Or.inl rfl) rfl
      (by decide) (by decide) (by decide),
    by decide⟩

/-! ## C2: underrun recovery -/

/-- C2: a chunk arriving at a clock time strictly past a positive cursor
while playback is active triggers the underrun branch exactly once for
the stall: the state goes to `loading`, the output gain node is rebuilt
(generation bump, discarding in-flight audio), the cursor is reset to
`clock + bufferTime`, the chunk is scheduled at that new cursor — not the
old one — and the re-buffering promotion timer is scheduled; any further
chunk arriving while the new cursor stays ahead of the clock does not
re-trigger the underrun branch, and when the promotion timer fires on the
resulting state, playback returns to `playing` (bufferTime after the
reset). -/
theorem C2_underrun_recovery (s : CtrlState) (clock dur : ℤ)
    (hst : s.playbackState = PlaybackState.loading ∨
      s.playbackState = PlaybackState.playing)
    (hpos : 0 < s.nextStartTime) (hlate : s.nextStartTime < clock) :
    (handleChunkDecoded clock dur s).2.underrun = true ∧
    (handleChunkDecoded clock dur s).1.playbackState = PlaybackState.loading ∧
    (handleChunkDecoded clock dur s).1.outputGen = s.outputGen + 1 ∧
    (handleChunkDecoded clock dur s).2.scheduled = some (clock + bufferTime) ∧
    (handleChunkDecoded clock dur s).1.nextStartTime
      = clock + bufferTime + dur ∧
    (handleChunkDecoded clock dur s).1.pending
      = s.pending ++ [TimerKind.promoteT] ∧
    (∀ clock2 dur2 : ℤ, clock2 ≤ clock + bufferTime + dur →
      (handleChunkDecoded clock2 dur2 (handleChunkDecoded clock dur s).1).2.underrun
        = false) ∧
    (fireTimer TimerKind.promoteT (handleChunkDecoded clock dur s).1).playbackState
      = PlaybackState.playing := by
  have hguard : ¬ (s.playbackState = PlaybackState.paused ∨
      s.playbackState = PlaybackState.stopped) := by
    rcases hst with h | h <;> simp [h]
  have hund : decide (0 < s.nextStartTime ∧ s.nextStartTime < clock) = true := by
    simp only [decide_eq_true_eq]
    exact ⟨hpos, hlate⟩
  have hstep : handleChunkDecoded clock dur s =
      ({ s with playbackState := PlaybackState.loading
                outputGen := s.outputGen + 1
                gainTarget := if s.isMuted then 0 else 1
                nextStartTime := clock + bufferTime + dur
                pending := s.pending ++ [TimerKind.promoteT] },
        ⟨some (clock + bufferTime), true⟩) := by
    simp only [handleChunkDecoded, if_neg hguard, hund]
    rw [if_pos (Or.inr hlate), if_pos ⟨hpos, hlate⟩]
  rw [hstep]
  refine ⟨rfl, rfl, rfl, rfl, rfl, rfl, ?_, rfl⟩
  intro clock2 dur2 hclock2
  have hguard2 : ¬ (PlaybackState.loading = PlaybackState.paused ∨
      PlaybackState.loading = PlaybackState.stopped) := by simp
  simp only [handleChunkDecoded, hguard2, if_neg, if_false,
    decide_eq_false_iff_not]
  simp only [bufferTime] at hclock2 ⊢
  omega

/-- C2 witness: the spec's underrun scenario in frame units — steady
playback with the cursor at `T+4 s` (192000 frames), a chunk of 1 s
arriving at clock `T+5 s` (240000 frames): one underrun, state
`playing → loading`, gain node rebuilt, new cursor `T+7 s` = 336000
frames, and the promotion timer returns the state to `playing`. -/
theorem C2_underrun_recovery_witness :
    ((playingAtFour.playbackState = PlaybackState.loading ∨
        playingAtFour.playbackState = PlaybackState.playing) ∧
      0 < playingAtFour.nextStartTime ∧
      playingAtFour.nextStartTime < 240000) ∧
    ((handleChunkDecoded 240000 48000 playingAtFour).2.underrun = true ∧
    (handleChunkDecoded 240000 48000 playingAtFour).1.playbackState
      = PlaybackState.loading ∧
    (handleChunkDecoded 240000 48000 playingAtFour).1.outputGen
      = playingAtFour.outputGen + 1 ∧
    (handleChunkDecoded 240000 48000 playingAtFour).2.scheduled
      = some (240000 + bufferTime) ∧
    (handleChunkDecoded 240000 48000 playingAtFour).1.nextStartTime
      = 240000 + bufferTime + 48000 ∧
    (handleChunkDecoded 240000 48000 playingAtFour).1.pending
      = playingAtFour.pending ++ [TimerKind.promoteT] ∧
    (∀ clock2 dur2 : ℤ, clock2 ≤ 240000 + bufferTime + 48000 →
      (handleChunkDecoded clock2 dur2
        (handleChunkDecoded 240000 48000 playingAtFour).1).2.underrun = false) ∧
    (fireTimer TimerKind.promoteT
        (handleChunkDecoded 240000 48000 playingAtFour).1).playbackState
      = PlaybackState.playing) ∧
    (handleChunkDecoded 240000 48000 playingAtFour).2.scheduled = some 336000 :=
  ⟨⟨Or.inr rfl, by decide, by decide⟩,
    C2_underrun_recovery playingAtFour 240000 48000 (Or.inr rfl)
      (by decide) (by decide),
    by decide⟩

/-! ## C3: promotion-timer guard -/

/-- C3: the one-shot pre-roll timer promotes `loading` to `playing` only
if the state is still `loading` when it fires; if a `pause()`/`stop()`
moved the state away during the buffering window (or it changed for any
other reason), the timer callback leaves the state unchanged. -/
theorem C3_promotion_timer_guard (s : CtrlState) (i : Nat)
    (hp : s.pending[i]? = some TimerKind.promoteT) :
    (s.playbackState = PlaybackState.loading →
      (step (Event.fire i) s).playbackState = PlaybackState.playing) ∧
    (s.playbackState ≠ PlaybackState.loading →
      (step (Event.fire i) s).playbackState = s.playbackState) := by
  constructor <;> intro h <;> simp [step, hp, fireTimer, h]

/-- C3 witness: a controller paused during the buffering window with the
promotion timer still pending — firing the timer leaves it `paused`. -/
theorem C3_promotion_timer_guard_witness :
    pausedPendingPromote.pending[0]? = some TimerKind.promoteT ∧
    ((pausedPendingPromote.playbackState = PlaybackState.loading →
        (step (Event.fire 0) pausedPendingPromote).playbackState
          = PlaybackState.playing) ∧
      (pausedPendingPromote.playbackState ≠ PlaybackState.loading →
        (step (Event.fire 0) pausedPendingPromote).playbackState
          = pausedPendingPromote.playbackState)) ∧
    (step (Event.fire 0) pausedPendingPromote).playbackState
      = PlaybackState.paused :=
  ⟨rfl, C3_promotion_timer_guard pausedPendingPromote 0 rfl, by decide⟩

/-! ## C5: corrupt-chunk handling -/

/-- C5 (counterexample): with the state `loading`, a malformed chunk makes
`handleServerMessage` end in an escaped exception (the `Except.error`
outcome — there is no try/catch around the decode in the handler), so the
decode error does propagate uncaught out of the chunk message handler,
contrary to the claim. -/
theorem C5_decode_error_escapes :
    handleServerMessage 0 (Except.error ()) loadingState
      = (loadingState, Except.error ()) := rfl

/-- C5 (amended): a chunk whose base64 data is malformed is dropped —
nothing is scheduled and the module state, in particular
`playbackState`, is unchanged — but the decode error escapes
`handleServerMessage` uncaught (the handler has no try/catch and does not
log the failure itself), surfacing as an unhandled rejection of the async
handler. -/
theorem C5_corrupt_chunk_absorption (s : CtrlState) (clock : ℤ)
    (hst : s.playbackState = PlaybackState.loading ∨
      s.playbackState = PlaybackState.playing) :
    (handleServerMessage clock (Except.error ()) s).1 = s ∧
    (handleServerMessage clock (Except.error ()) s).2 = Except.error () := by
  have hguard : ¬ (s.playbackState = PlaybackState.paused ∨
      s.playbackState = PlaybackState.stopped) := by
    rcases hst with h | h <;> simp [h]
  simp [handleServerMessage, hguard]

theorem C5_corrupt_chunk_absorption_witness :
    (loadingState.playbackState = PlaybackState.loading ∨
      loadingState.playbackState = PlaybackState.playing) ∧
    (handleServerMessage 0 (Except.error ()) loadingState).1 = loadingState ∧
    (handleServerMessage 0 (Except.error ()) loadingState).2
      = Except.error () :=
  ⟨Or.inl rfl, C5_corrupt_chunk_absorption loadingState 0 (Or.inl rfl)⟩

/-! ## C9: mute independence -/

/-- C9 (counterexample): in the initial state (`playbackState = stopped`,
audio context not yet created) `toggleMute()` is a complete no-op —
`isMuted` stays `false` instead of flipping — so "for every playback
state, toggleMute() flips isMuted" fails. -/
theorem C9_toggleMute_noop_before_init :
    toggleMute initState = initState ∧ initState.isMuted = false ∧
    (toggleMute initState).isMuted = false := by decide

/-- C9 (amended): once the audio context and output node exist,
`toggleMute()` flips `isMuted` and ramps the output gain to the new mute
target (0 when muting, 1 when unmuting), and it never changes
`playbackState`, the session handle, the scheduling cursor
`nextStartTime`, or the pending timers; before the audio context exists
it is a complete no-op (so those are trivially unchanged then too). -/
theorem C9_mute_independence (s : CtrlState) (h : s.audioCtxInit = true) :
    (toggleMute s).isMuted = !s.isMuted ∧
    (toggleMute s).gainTarget = (if !s.isMuted then 0 else 1) ∧
    (toggleMute s).playbackState = s.playbackState ∧
    (toggleMute s).nextStartTime = s.nextStartTime ∧
    (toggleMute s).session = s.session ∧
    (toggleMute s).pending = s.pending := by
  simp [toggleMute, h]

theorem C9_mute_independence_witness :
    loadingState.audioCtxInit = true ∧
    ((toggleMute loadingState).isMuted = !loadingState.isMuted ∧
      (toggleMute loadingState).gainTarget
        = (if !loadingState.isMuted then 0 else 1) ∧
      (toggleMute loadingState).playbackState = loadingState.playbackState ∧
      (toggleMute loadingState).nextStartTime = loadingState.nextStartTime ∧
      (toggleMute loadingState).session = loadingState.session ∧
      (toggleMute loadingState).pending = loadingState.pending) :=
  ⟨rfl, C9_mute_independence loadingState rfl⟩

/-! ## C10: pause/stop fade-out resets the gain to 1 regardless of mute -/

/-- C10: when the 100 ms fade-out completion timer of `pause()`/`stop()`
fires, the output gain is unconditionally restored to 1 — the unmuted
level — even when `isMuted` is true; the mute flag itself is untouched,
so a muted controller's gain disagrees with its mute flag until the next
`play()` or `toggleMute()` re-applies it. -/
theorem C10_fade_restores_gain (s : CtrlState) (i : Nat)
    (hp : s.pending[i]? = some TimerKind.pauseT ∨
      s.pending[i]? = some TimerKind.stopT) :
    (step (Event.fire i) s).gainTarget = 1 ∧
    (step (Event.fire i) s).isMuted = s.isMuted := by
  rcases hp with h | h <;> simp [step, h, fireTimer]

/-- C10 witness: a muted controller mid-fade — after the fade timer fires
the gain target is 1 although `isMuted` is still `true`. -/
theorem C10_fade_restores_gain_witness :
    (mutedFadeState.pending[0]? = some TimerKind.pauseT ∨
      mutedFadeState.pending[0]? = some TimerKind.stopT) ∧
    ((step (Event.fire 0) mutedFadeState).gainTarget = 1 ∧
      (step (Event.fire 0) mutedFadeState).isMuted = mutedFadeState.isMuted) ∧
    mutedFadeState.isMuted = true :=
  ⟨Or.inl rfl, C10_fade_restores_gain mutedFadeState 0 (Or.inl rfl), rfl⟩

/-! ## C4: connection-failure recovery -/

/-- C4 (code bug): the error/close callbacks set `connectionError` and
call `stop()`, but nothing ever clears `session`, so when the next
`play()` call sees `connectionError` and issues the automatic
`connect()`, that `connect()` returns immediately at its
`if (session) return` idempotence guard: whatever the connect attempt
would have produced, no new session handle is created, `connectionError`
stays set, and the state is completely unchanged — the session is not
recoverable through `play()`, contrary to the documented recovery path.
`errorStuckState` (dead handle still installed, sticky error, stopped) is
reachable via connect → play → onerror → fade-out timer. -/
theorem C4_reconnect_dead_handle :
    Reachable errorStuckState ∧
    (∀ o : ConnectOutcome,
      step (Event.playEv o) errorStuckState = errorStuckState) ∧
    errorStuckState.connectionError = true ∧
    errorStuckState.session = some 0 ∧
    errorStuckState.handleCtr = 1 := by
  refine ⟨?_, ?_, rfl, rfl, rfl⟩
  · have h : Reachable (step (Event.fire 0) (step Event.onError
        (step (Event.playEv ConnectOutcome.ok)
          (step (Event.connectEv ConnectOutcome.ok) initState)))) :=
      Reachable.step _ (Reachable.step _ (Reachable.step _
        (Reachable.step _ Reachable.init)))
    have he : step (Event.fire 0) (step Event.onError
        (step (Event.playEv ConnectOutcome.ok)
          (step (Event.connectEv ConnectOutcome.ok) initState)))
        = errorStuckState := by decide
    rwa [he] at h
  · intro o
    cases o <;> decide

/-! ## Controller step lemmas -/

theorem initAudioContext_playbackState (s : CtrlState) :
    (initAudioContext s).playbackState = s.playbackState := by
  simp only [initAudioContext]; split <;> rfl

theorem initAudioContext_session (s : CtrlState) :
    (initAudioContext s).session = s.session := by
  simp only [initAudioContext]; split <;> rfl

theorem initAudioContext_pending (s : CtrlState) :
    (initAudioContext s).pending = s.pending := by
  simp only [initAudioContext]; split <;> rfl

theorem fireTimer_session (k : TimerKind) (s : CtrlState) :
    (fireTimer k s).session = s.session := by
  cases k
  · simp only [fireTimer]; split <;> rfl
  · rfl
  · rfl

theorem handleChunkDecoded_session (c d : ℤ) (s : CtrlState) :
    (handleChunkDecoded c d s).1.session = s.session := by
  simp only [handleChunkDecoded]
  split
  · rfl
  · split
    · split <;> rfl
    · rfl

theorem handleChunkDecoded_playbackState (c d : ℤ) (s : CtrlState) :
    (handleChunkDecoded c d s).1.playbackState = s.playbackState ∨
    (handleChunkDecoded c d s).1.playbackState = PlaybackState.loading := by
  simp only [handleChunkDecoded]
  split
  · left; rfl
  · split
    · split
      · right; rfl
      · left; rfl
    · left; rfl

theorem connect_session_of_isSome (o : ConnectOutcome) (s : CtrlState)
    (hs : s.session.isSome = true) : (connect o s).session = s.session := by
  cases o <;> simp [connect, hs]

theorem connect_playbackState (o : ConnectOutcome) (s : CtrlState) :
    (connect o s).playbackState = s.playbackState ∨
    (connect o s).playbackState = PlaybackState.stopped := by
  cases o with
  | noKey => left; rfl
  | ok =>
    simp only [connect]
    split
    · left; rfl
    · left; exact initAudioContext_playbackState s
  | fail =>
    simp only [connect]
    split
    · left; rfl
    · right; rfl

theorem play_playbackState (o : ConnectOutcome) (s : CtrlState) :
    (play o s).playbackState = s.playbackState ∨
    (play o s).playbackState = PlaybackState.stopped ∨
    (play o s).playbackState = PlaybackState.loading := by
  simp only [play]
  split
  · left; rfl
  · split
    · rcases connect_playbackState o s with h | h
      · left; exact h
      · right; left; exact h
    · right; right; rfl

theorem play_session (o : ConnectOutcome) (s : CtrlState) :
    (play o s).session = s.session := by
  simp only [play]
  split
  · rfl
  · rename_i hg
    split
    · have hs : s.session.isSome = true := by
        cases hsess : s.session with
        | none => exact absurd (Or.inl hsess) hg
        | some g => rfl
      exact connect_session_of_isSome o s hs
    · exact initAudioContext_session s

theorem pause_playbackState (s : CtrlState) :
    (pause s).playbackState = s.playbackState := by
  simp only [pause]; split <;> rfl

theorem pause_session (s : CtrlState) : (pause s).session = s.session := by
  simp only [pause]; split <;> rfl

theorem stop_playbackState (s : CtrlState) :
    (stop s).playbackState = s.playbackState := by
  simp only [stop]; split <;> rfl

theorem stop_session (s : CtrlState) : (stop s).session = s.session := by
  simp only [stop]; split <;> rfl

theorem toggleMute_playbackState (s : CtrlState) :
    (toggleMute s).playbackState = s.playbackState := by
  simp only [toggleMute]; split <;> rfl

theorem toggleMute_session (s : CtrlState) :
    (toggleMute s).session = s.session := by
  simp only [toggleMute]; split <;> rfl

/-- Reachability invariant: the module never clears `session`, and before
the first successful `connect()` the state is `stopped` with no pending
deferred callback. -/
theorem reachable_session_inv {s : CtrlState} (hr : Reachable s) :
    s.session = none →
    s.playbackState = PlaybackState.stopped ∧ s.pending = [] := by
  induction hr with
  | init => exact fun _ => ⟨rfl, rfl⟩
  | @step e s0 hr ih =>
    intro h
    cases e with
    | connectEv o =>
      cases o with
      | noKey => exact ih h
      | ok =>
        by_cases hs : s0.session.isSome = true
        · simp only [step, connect, if_pos hs] at h ⊢
          exact ih h
        · simp only [step, connect, if_neg hs] at h
          exact absurd h (by simp)
      | fail =>
        by_cases hs : s0.session.isSome = true
        · simp only [step, connect, if_pos hs] at h ⊢
          exact ih h
        · simp only [step, connect, if_neg hs] at h ⊢
          have h0 : s0.session = none := by
            cases hsess : s0.session with
            | none => rfl
            | some g => rw [hsess] at hs; exact absurd rfl hs
          constructor
          · simp
          · rw [initAudioContext_pending]
            exact (ih h0).2
    | playEv o =>
      have hsess := play_session o s0
      simp only [step] at h ⊢
      rw [hsess] at h
      have ⟨h1, h2⟩ := ih h
      have hnoop : play o s0 = s0 := by
        simp [play, h1, h]
      rw [hnoop]
      exact ⟨h1, h2⟩
    | pauseEv =>
      have hsess := pause_session s0
      simp only [step] at h ⊢
      rw [hsess] at h
      have ⟨h1, h2⟩ := ih h
      have hnoop : pause s0 = s0 := by simp [pause, h1]
      rw [hnoop]
      exact ⟨h1, h2⟩
    | stopEv =>
      have hsess := stop_session s0
      simp only [step] at h ⊢
      rw [hsess] at h
      have ⟨h1, h2⟩ := ih h
      have hnoop : stop s0 = s0 := by simp [stop, h]
      rw [hnoop]
      exact ⟨h1, h2⟩
    | toggleMuteEv =>
      have hsess := toggleMute_session s0
      simp only [step] at h ⊢
      rw [hsess] at h
      have ⟨h1, h2⟩ := ih h
      constructor
      · rw [toggleMute_playbackState]; exact h1
      · have : (toggleMute s0).pending = s0.pending := by
          simp only [toggleMute]; split <;> rfl
        rw [this]; exact h2
    | chunk c d =>
      have hsess := handleChunkDecoded_session c d s0
      simp only [step] at h ⊢
      rw [hsess] at h
      have ⟨h1, h2⟩ := ih h
      have hnoop : (handleChunkDecoded c d s0).1 = s0 := by
        simp [handleChunkDecoded, h1]
      rw [hnoop]
      exact ⟨h1, h2⟩
    | setupComplete =>
      simp only [step] at h ⊢
      exact ih h
    | onError =>
      simp only [step] at h ⊢
      rw [stop_session] at h
      have h3 : s0.session = none := by simpa using h
      have ⟨h1, h2⟩ := ih h3
      have hnoop : stop { s0 with connectionError := true }
          = { s0 with connectionError := true } := by
        simp [stop, h3]
      rw [hnoop]
      exact ⟨h1, h2⟩
    | onClose =>
      simp only [step] at h ⊢
      rw [stop_session] at h
      have h3 : s0.session = none := by simpa using h
      have ⟨h1, h2⟩ := ih h3
      have hnoop : stop { s0 with connectionError := true }
          = { s0 with connectionError := true } := by
        simp [stop, h3]
      rw [hnoop]
      exact ⟨h1, h2⟩
    | fire i =>
      cases hg : s0.pending[i]? with
      | none =>
        simp only [step, hg] at h ⊢
        exact ih h
      | some k =>
        simp only [step, hg] at h ⊢
        rw [fireTimer_session] at h
        have ⟨h1, h2⟩ := ih h
        rw [h2] at hg
        simp at hg

/-- `playing` is only ever entered by the deferred promotion callback, and
only from `loading`. -/
theorem step_playing_of (s : CtrlState) (e : Event)
    (h : (step e s).playbackState = PlaybackState.playing) :
    s.playbackState = PlaybackState.playing ∨
      (s.playbackState = PlaybackState.loading ∧ ∃ i, e = Event.fire i) := by
  cases e with
  | connectEv o =>
    simp only [step] at h
    rcases connect_playbackState o s with hP | hP
    · rw [hP] at h; exact Or.inl h
    · rw [hP] at h; exact absurd h (by decide)
  | playEv o =>
    simp only [step] at h
    rcases play_playbackState o s with hP | hP | hP
    · rw [hP] at h; exact Or.inl h
    · rw [hP] at h; exact absurd h (by decide)
    · rw [hP] at h; exact absurd h (by decide)
  | pauseEv =>
    simp only [step] at h
    rw [pause_playbackState] at h
    exact Or.inl h
  | stopEv =>
    simp only [step] at h
    rw [stop_playbackState] at h
    exact Or.inl h
  | toggleMuteEv =>
    simp only [step] at h
    rw [toggleMute_playbackState] at h
    exact Or.inl h
  | chunk c d =>
    simp only [step] at h
    rcases handleChunkDecoded_playbackState c d s with hP | hP
    · rw [hP] at h; exact Or.inl h
    · rw [hP] at h; exact absurd h (by decide)
  | setupComplete =>
    simp only [step] at h
    exact Or.inl h
  | onError =>
    simp only [step] at h
    rw [stop_playbackState] at h
    exact Or.inl h
  | onClose =>
    simp only [step] at h
    rw [stop_playbackState] at h
    exact Or.inl h
  | fire i =>
    cases hg : s.pending[i]? with
    | none =>
      simp only [step, hg] at h
      exact Or.inl h
    | some k =>
      simp only [step, hg] at h
      cases k with
      | promoteT =>
        simp only [fireTimer] at h
        split at h
        · rename_i hl
          exact Or.inr ⟨hl, i, rfl⟩
        · exact Or.inl h
      | pauseT =>
        simp only [fireTimer] at h
        exact absurd h (by decide)
      | stopT =>
        simp only [fireTimer] at h
        exact absurd h (by decide)

/-- From `stopped`, the only event that enters `loading` is a `play()`
call, and it requires a session handle and a clear connection-error
flag. -/
theorem step_loading_from_stopped (s : CtrlState) (e : Event)
    (hstop : s.playbackState = PlaybackState.stopped)
    (h : (step e s).playbackState = PlaybackState.loading) :
    (∃ o, e = Event.playEv o) ∧ s.session ≠ none ∧ ¬ s.connectionError := by
  cases e with
  | connectEv o =>
    simp only [step] at h
    rcases connect_playbackState o s with hP | hP
    · rw [hP, hstop] at h; exact absurd h (by decide)
    · rw [hP] at h; exact absurd h (by decide)
  | playEv o =>
    simp only [step, play] at h
    split at h
    · rw [hstop] at h; exact absurd h (by decide)
    · rename_i hg
      split at h
      · rcases connect_playbackState o s with hP | hP
        · rw [hP, hstop] at h; exact absurd h (by decide)
        · rw [hP] at h; exact absurd h (by decide)
      · rename_i hc
        exact ⟨⟨o, rfl⟩, fun hsess => hg (Or.inl hsess), hc⟩
  | pauseEv =>
    simp only [step] at h
    rw [pause_playbackState, hstop] at h
    exact absurd h (by decide)
  | stopEv =>
    simp only [step] at h
    rw [stop_playbackState, hstop] at h
    exact absurd h (by decide)
  | toggleMuteEv =>
    simp only [step] at h
    rw [toggleMute_playbackState, hstop] at h
    exact absurd h (by decide)
  | chunk c d =>
    simp only [step] at h
    have hnoop : (handleChunkDecoded c d s).1 = s := by
      simp [handleChunkDecoded, hstop]
    rw [hnoop, hstop] at h
    exact absurd h (by decide)
  | setupComplete =>
    simp only [step] at h
    have h2 : s.playbackState = PlaybackState.loading := h
    rw [hstop] at h2
    exact absurd h2 (by decide)
  | onError =>
    simp only [step] at h
    rw [stop_playbackState] at h
    have h2 : s.playbackState = PlaybackState.loading := h
    rw [hstop] at h2
    exact absurd h2 (by decide)
  | onClose =>
    simp only [step] at h
    rw [stop_playbackState] at h
    have h2 : s.playbackState = PlaybackState.loading := h
    rw [hstop] at h2
    exact absurd h2 (by decide)
  | fire i =>
    cases hg : s.pending[i]? with
    | none =>
      simp only [step, hg] at h
      rw [hstop] at h
      exact absurd h (by decide)
    | some k =>
      simp only [step, hg] at h
      cases k with
      | promoteT =>
        simp only [fireTimer] at h
        split at h
        · have h2 : PlaybackState.playing = PlaybackState.loading := h
          exact absurd h2 (by decide)
        · have h2 : s.playbackState = PlaybackState.loading := h
          rw [hstop] at h2
          exact absurd h2 (by decide)
      | pauseT =>
        simp only [fireTimer] at h
        have h2 : PlaybackState.paused = PlaybackState.loading := h
        exact absurd h2 (by decide)
      | stopT =>
        simp only [fireTimer] at h
        have h2 : PlaybackState.stopped = PlaybackState.loading := h
        exact absurd h2 (by decide)

/-- With no session installed, the only event that installs one is a
successful `connect()`. -/
theorem step_session_new (s : CtrlState) (e : Event)
    (hs : s.session = none) (h : (step e s).session ≠ none) :
    e = Event.connectEv ConnectOutcome.ok := by
  cases e with
  | connectEv o =>
    cases o with
    | noKey =>
      simp only [step, connect] at h
      exact absurd hs h
    | ok => rfl
    | fail =>
      have hsome : s.session.isSome = true → False := by
        intro hx
        rw [hs] at hx
        exact absurd hx (by decide)
      have : (step (Event.connectEv ConnectOutcome.fail) s).session = none := by
        simp only [step, connect]
        rw [if_neg hsome]
        rw [initAudioContext_session]
        exact hs
      exact absurd this h
  | playEv o =>
    simp only [step] at h
    rw [play_session] at h
    exact absurd hs h
  | pauseEv =>
    simp only [step] at h
    rw [pause_session] at h
    exact absurd hs h
  | stopEv =>
    simp only [step] at h
    rw [stop_session] at h
    exact absurd hs h
  | toggleMuteEv =>
    simp only [step] at h
    rw [toggleMute_session] at h
    exact absurd hs h
  | chunk c d =>
    simp only [step] at h
    rw [handleChunkDecoded_session] at h
    exact absurd hs h
  | setupComplete =>
    simp only [step] at h
    exact absurd hs h
  | onError =>
    simp only [step] at h
    rw [stop_session] at h
    exact absurd hs h
  | onClose =>
    simp only [step] at h
    rw [stop_session] at h
    exact absurd hs h
  | fire i =>
    cases hg : s.pending[i]? with
    | none =>
      simp only [step, hg] at h
      exact absurd hs h
    | some k =>
      simp only [step, hg] at h
      rw [fireTimer_session] at h
      exact absurd hs h

/-! ## C8: state-machine closure -/

/-- C8: from every reachable state, a `stop()` call settled by its
fade-out timer ends in `stopped`; and from `stopped` the only route to
`playing` is `connect()` followed by `play()`: `playing` is only entered
by a deferred timer firing on a `loading` state, `loading` is only
entered from `stopped` by a `play()` call that requires a session handle
and no sticky connection error, and a session handle only appears through
a successful `connect()`. -/
theorem C8_state_machine_closure (s : CtrlState) (hr : Reachable s) :
    (stopSettled s).playbackState = PlaybackState.stopped ∧
    (∀ e, (step e s).playbackState = PlaybackState.playing →
      s.playbackState = PlaybackState.playing ∨
        (s.playbackState = PlaybackState.loading ∧ ∃ i, e = Event.fire i)) ∧
    (s.playbackState = PlaybackState.stopped →
      ∀ e, (step e s).playbackState = PlaybackState.loading →
        (∃ o, e = Event.playEv o) ∧ s.session ≠ none ∧ ¬ s.connectionError) ∧
    (s.session = none →
      ∀ e, (step e s).session ≠ none →
        e = Event.connectEv ConnectOutcome.ok) := by
  refine ⟨?_, fun e h => step_playing_of s e h,
    fun hstop e h => step_loading_from_stopped s e hstop h,
    fun hs e h => step_session_new s e hs h⟩
  by_cases hs0 : s.session = none
  · obtain ⟨h1, h2⟩ := reachable_session_inv hr hs0
    have hnoop : stop s = s := by simp [stop, hs0]
    simp [stopSettled, step, hnoop, h2, h1]
  · have hstep : step Event.stopEv s =
        { s with nextStartTime := 0
                 gainTarget := 0
                 pending := s.pending ++ [TimerKind.stopT] } := by
      simp [step, stop, hs0]
    simp only [stopSettled, hstep]
    have hlen : (s.pending ++ [TimerKind.stopT]).length - 1
        = s.pending.length := by simp
    have hget : (s.pending ++ [TimerKind.stopT])[s.pending.length]?
        = some TimerKind.stopT := List.getElem?_concat_length s.pending _
    simp only [step, hlen, hget, fireTimer]

/-- C8 witness: the closure properties instantiated at the initial
state. -/
theorem C8_state_machine_closure_witness :
    (stopSettled initState).playbackState = PlaybackState.stopped ∧
    (∀ e, (step e initState).playbackState = PlaybackState.playing →
      initState.playbackState = PlaybackState.playing ∨
        (initState.playbackState = PlaybackState.loading ∧
          ∃ i, e = Event.fire i)) ∧
    (initState.playbackState = PlaybackState.stopped →
      ∀ e, (step e initState).playbackState = PlaybackState.loading →
        (∃ o, e = Event.playEv o) ∧ initState.session ≠ none ∧
          ¬ initState.connectionError) ∧
    (initState.session = none →
      ∀ e, (step e initState).session ≠ none →
        e = Event.connectEv ConnectOutcome.ok) :=
  C8_state_machine_closure initState Reachable.init

end Superheroes
